import Mathlib

/-! The ICU4C umbrella header.

`Sources/ICU4C/umbrella.h` is the whole program: a list of preprocessor
directives. The header is embedded as its text, line by line, together with a
small reader of directive lines and a model of what the preprocessor does with
them (object-like macro definitions and angle-bracket imports). Every statement
below is about that text and what the reader and the model compute from it.
-/

namespace ICU4C

/-! ## The source text -/

/-- The text of `Sources/ICU4C/umbrella.h`, one string per line, first line
first. The file has 69 lines and no newline after the last one. -/
def umbrella_h : List String := [
  "// Copyright 2017 Tony Allevato.",
  "//",
  "// Licensed under the Apache License, Version 2.0 (the \"License\");",
  "// you may not use this file except in compliance with the License.",
  "// You may obtain a copy of the License at",
  "//",
  "// http://www.apache.org/licenses/LICENSE-2.0",
  "//",
  "// Unless required by applicable law or agreed to in writing, software",
  "// distributed under the License is distributed on an \"AS IS\" BASIS,",
  "// WITHOUT WARRANTIES OR CONDITIONS OF ANY KIND, either express or implied.",
  "// See the License for the specific language governing permissions and",
  "// limitations under the License.",
  "",
  "// Ensure that the imported symbols don't have version number suffixes.",
  "#define U_DISABLE_RENAMING 1",
  "",
  "// Only the files defining (non-deprecated) C APIs are included below. C++ APIs",
  "// are excluded, as they would not be imported into Swift.",
  "#import <unicode/icudataver.h>",
  "#import <unicode/icuplug.h>",
  "#import <unicode/parseerr.h>",
  "#import <unicode/platform.h>",
  "#import <unicode/ptypes.h>",
  "#import <unicode/putil.h>",
  "#import <unicode/ubidi.h>",
  "#import <unicode/ubiditransform.h>",
  "#import <unicode/ubrk.h>",
  "#import <unicode/ucasemap.h>",
  "#import <unicode/ucat.h>",
  "#import <unicode/uchar.h>",
  "#import <unicode/uclean.h>",
  "#import <unicode/ucnv.h>",
  "#import <unicode/ucnv_cb.h>",
  "#import <unicode/ucnv_err.h>",
  "#import <unicode/ucnvsel.h>",
  "#import <unicode/uconfig.h>",
  "#import <unicode/ucurr.h>",
  "#import <unicode/udata.h>",
  "#import <unicode/udisplaycontext.h>",
  "#import <unicode/uenum.h>",
  "#import <unicode/uidna.h>",
  "#import <unicode/uiter.h>",
  "#import <unicode/uldnames.h>",
  "#import <unicode/ulistformatter.h>",
  "#import <unicode/uloc.h>",
  "#import <unicode/umachine.h>",
  "#import <unicode/umisc.h>",
  "#import <unicode/unorm.h>",
  "#import <unicode/unorm2.h>",
  "#import <unicode/uregex.h>",
  "#import <unicode/urep.h>",
  "#import <unicode/ures.h>",
  "#import <unicode/uscript.h>",
  "#import <unicode/usearch.h>",
  "#import <unicode/uset.h>",
  "#import <unicode/ushape.h>",
  "#import <unicode/usprep.h>",
  "#import <unicode/ustring.h>",
  "#import <unicode/ustringtrie.h>",
  "#import <unicode/utext.h>",
  "#import <unicode/utf.h>",
  "#import <unicode/utf16.h>",
  "#import <unicode/utf32.h>",
  "#import <unicode/utf8.h>",
  "#import <unicode/utrace.h>",
  "#import <unicode/utypes.h>",
  "#import <unicode/uvernum.h>",
  "#import <unicode/uversion.h>"
]

/-- Line `n` of the header, counted from 1 as an editor does. -/
def lineAt (n : Nat) : Option String :=
  if n = 0 then none else umbrella_h[n - 1]?

/-! ## Reading a line -/

/-- Space or horizontal tab. -/
def isBlankChar (c : Char) : Bool :=
  c.toNat = 32 || c.toNat = 9

/-- Characters of a C identifier: letters, digits and the underscore. -/
def isIdentChar (c : Char) : Bool :=
  (97 ≤ c.toNat && c.toNat ≤ 122) || (65 ≤ c.toNat && c.toNat ≤ 90) ||
    (48 ≤ c.toNat && c.toNat ≤ 57) || c.toNat = 95

/-- Removes `p` from the front of `cs`, when `cs` starts with it. -/
def stripPrefix? : List Char → List Char → Option (List Char)
  | [], cs => some cs
  | _ :: _, [] => none
  | p :: ps, c :: cs => if p = c then stripPrefix? ps cs else none

/-- Removes `s` from the end of `cs`, when `cs` ends with it. -/
def stripSuffix? (s cs : List Char) : Option (List Char) :=
  (stripPrefix? s.reverse cs.reverse).map List.reverse

/-- Drops blanks at both ends. -/
def trimBlanks (cs : List Char) : List Char :=
  ((cs.dropWhile isBlankChar).reverse.dropWhile isBlankChar).reverse

/-- What one line of the header is to the preprocessor. -/
inductive Directive where
  | blank
  | comment (text : String)
  | define (name value : String)
  | undef (name : String)
  | importAngle (path : String)
  | conditional (keyword : String)
  | other (text : String)
deriving DecidableEq, Repr

/-- The keyword of a directive line: the letters after the `#` that is the
first character of the line that is not a blank. `none` when the line is no
directive. -/
def keywordChars (cs : List Char) : Option (List Char) :=
  match cs.dropWhile isBlankChar with
  | c :: rest =>
    if c.toNat = 35 then some ((rest.dropWhile isBlankChar).takeWhile isIdentChar) else none
  | [] => none

/-- The keyword of a directive line, as a string. -/
def keyword (l : String) : Option String :=
  (keywordChars l.toList).map String.mk

/-- What follows the keyword of a directive line, blanks at both ends dropped. -/
def directiveArgs (cs : List Char) : List Char :=
  match cs.dropWhile isBlankChar with
  | _ :: rest => trimBlanks ((rest.dropWhile isBlankChar).dropWhile isIdentChar)
  | [] => []

/-- The conditional-inclusion keywords of the preprocessor. -/
def conditionalKeywords : List String :=
  ["if", "ifdef", "ifndef", "elif", "else", "endif"]

/-- Reads one line. A line of blanks is `blank`; a line whose first two
characters after leading blanks are `//` is a `comment`; a line whose first
character after leading blanks is `#` is a directive, read by its keyword;
everything else (declarations, definitions, statements) is `other`. -/
def parseLine (l : String) : Directive :=
  let cs := l.toList
  let body := cs.dropWhile isBlankChar
  if body.isEmpty then .blank
  else match stripPrefix? "//".toList body with
    | some t => .comment (String.mk t)
    | none =>
      match keywordChars cs with
      | none => .other l
      | some kw =>
        let args := directiveArgs cs
        if kw = "define".toList then
          let name := args.takeWhile isIdentChar
          let rest := args.dropWhile isIdentChar
          if name.isEmpty then .other l
          else match rest with
            | [] => .define (String.mk name) ""
            | c :: _ =>
              if isBlankChar c then
                .define (String.mk name) (String.mk (rest.dropWhile isBlankChar))
              else .other l
        else if kw = "undef".toList then
          if !args.isEmpty && args.all isIdentChar then .undef (String.mk args) else .other l
        else if kw = "import".toList then
          match stripPrefix? "<".toList args with
          | some r =>
            match stripSuffix? ">".toList r with
            | some p => .importAngle (String.mk p)
            | none => .other l
          | none => .other l
        else if String.mk kw ∈ conditionalKeywords then .conditional (String.mk kw)
        else .other l

/-- The header as the preprocessor reads it, line by line. -/
def directives : List Directive :=
  umbrella_h.map parseLine

/-- The path of an import directive. -/
def Directive.importPath? : Directive → Option String
  | .importAngle p => some p
  | _ => none

/-- The import list of the header: the paths of its import directives, in
file order. -/
def imports : List String :=
  directives.filterMap Directive.importPath?

/-- A line of blanks only (the empty line included). -/
def isBlankLine (l : String) : Bool :=
  l.toList.all isBlankChar

/-- A line whose first characters after leading blanks are `//`. -/
def isLineComment (l : String) : Bool :=
  (stripPrefix? "//".toList (l.toList.dropWhile isBlankChar)).isSome

/-- The `NAME` of a line written `#import <unicode/NAME.h>`, character for
character; `none` for every other line. -/
def headerName? (l : String) : Option (List Char) :=
  (stripPrefix? "#import <unicode/".toList l.toList).bind (stripSuffix? ".h>".toList)

/-- The one definition line of the header, as written on line 16. -/
def defineLine : String := "#define U_DISABLE_RENAMING 1"

/-- A line is either blank, a comment, the definition line, or an import of
`unicode/NAME.h` with `NAME` a nonempty run of identifier characters. -/
def isManifestLine (l : String) : Bool :=
  isBlankLine l || isLineComment l || decide (l = defineLine) ||
    match headerName? l with
    | some n => !n.isEmpty && n.all isIdentChar
    | none => false

/-- Lines that are neither blank, nor a comment, nor a preprocessor directive
the reader knows: where declarations and definitions would be. -/
def Directive.isOther : Directive → Bool
  | .other _ => true
  | _ => false

/-- Whether a line ends in a backslash, which would splice the next line onto it. -/
def endsInBackslash (l : String) : Bool :=
  l.toList.getLast? = some (Char.ofNat 92)

/-! ## What the preprocessor does with the header -/

/-- The preprocessor while it reads the header: the object-like macros in
effect, and every header imported so far together with the macros that were in
effect when it was read. -/
structure PPState where
  macros : List (String × String)
  imported : List (String × List (String × String))
deriving DecidableEq, Repr

/-- One line of the header. `#define` binds a macro, `#undef` removes it,
`#import` reads a header under the macros in effect unless that header was
imported before; the other lines change nothing. -/
def step (s : PPState) : Directive → PPState
  | .define n v => { s with macros := (n, v) :: s.macros.filter (fun m => m.1 ≠ n) }
  | .undef n => { s with macros := s.macros.filter (fun m => m.1 ≠ n) }
  | .importAngle p =>
    if s.imported.any (fun e => e.1 = p) then s
    else { s with imported := s.imported ++ [(p, s.macros)] }
  | _ => s

/-- Reading a list of lines from the top, starting with no macro defined. -/
def preprocess (ds : List Directive) : PPState :=
  ds.foldl step { macros := [], imported := [] }

/-- Checks `P n a` for every element `a` of the list, `n` being its position
counted from `k`. -/
def checkFrom {α : Type} (P : Nat → α → Bool) : Nat → List α → Bool
  | _, [] => true
  | k, a :: as => P k a && checkFrom P (k + 1) as

/-! ## The order of the import list -/

/-- The bytes of a string in UTF-8, the encoding of the header file. -/
def utf8Bytes (s : String) : List Nat :=
  s.toList.flatMap fun c => (String.utf8EncodeChar c).map UInt8.toNat

/-- Strict lexicographic order on byte sequences: the first differing byte
decides, and a proper prefix comes first. -/
def bytesLt : List Nat → List Nat → Bool
  | [], [] => false
  | [], _ :: _ => true
  | _ :: _, [] => false
  | a :: as, b :: bs => decide (a < b) || (decide (a = b) && bytesLt as bs)

/-- Path `p` comes strictly before path `q` byte by byte. -/
def pathLt (p q : String) : Prop :=
  bytesLt (utf8Bytes p) (utf8Bytes q) = true

instance pathLt.decidable (p q : String) : Decidable (pathLt p q) :=
  inferInstanceAs (Decidable (bytesLt (utf8Bytes p) (utf8Bytes q) = true))

/-! ## Lemmas about the reader -/

theorem stripPrefix?_sound : ∀ (p cs r : List Char), stripPrefix? p cs = some r → cs = p ++ r
  | [], cs, r, h => by
    simp only [stripPrefix?, Option.some.injEq] at h
    simp [h]
  | _ :: _, [], r, h => by simp [stripPrefix?] at h
  | a :: p, c :: cs, r, h => by
    by_cases hac : a = c
    · subst hac
      have h2 : stripPrefix? p cs = some r := by simpa [stripPrefix?] using h
      simp [stripPrefix?_sound p cs r h2]
    · simp [stripPrefix?, hac] at h

theorem stripSuffix?_sound (s cs r : List Char) (h : stripSuffix? s cs = some r) :
    cs = r ++ s := by
  unfold stripSuffix? at h
  obtain ⟨q, hq, rfl⟩ := Option.map_eq_some'.mp h
  have h2 := congrArg List.reverse (stripPrefix?_sound _ _ _ hq)
  simpa using h2

theorem headerName?_sound (l : String) (n : List Char) (h : headerName? l = some n) :
    l = "#import <unicode/" ++ String.mk n ++ ".h>" := by
  unfold headerName? at h
  obtain ⟨r, hr, hn⟩ := Option.bind_eq_some.mp h
  have h1 := stripPrefix?_sound _ _ _ hr
  have h2 := stripSuffix?_sound _ _ _ hn
  apply String.ext
  rw [String.data_append, String.data_append]
  show l.toList = _
  rw [h1, h2]
  simp

theorem checkFrom_get {α : Type} (P : Nat → α → Bool) :
    ∀ (l : List α) (k : Nat), checkFrom P k l = true →
      ∀ (i : Nat) (a : α), l[i]? = some a → P (k + i) a = true
  | [], _, _, i, a, h => by simp at h
  | b :: l, k, hc, 0, a, h => by
    simp [checkFrom] at hc
    simp at h
    subst h
    simpa using hc.1
  | b :: l, k, hc, i + 1, a, h => by
    simp [checkFrom] at hc
    simp at h
    have := checkFrom_get P l (k + 1) hc.2 i a h
    simpa [Nat.add_assoc, Nat.add_comm 1 i] using this

theorem bytesLt_irrefl : ∀ l : List Nat, bytesLt l l = false
  | [] => rfl
  | a :: l => by simp [bytesLt, bytesLt_irrefl l]

theorem pathLt_ne {p q : String} (h : pathLt p q) : p ≠ q := by
  rintro rfl
  unfold pathLt at h
  rw [bytesLt_irrefl] at h
  exact Bool.noConfusion h

/-! ## The header is an import manifest -/

set_option maxRecDepth 100000

/-- C1: every line of the header that is neither blank nor a `//` comment is
the line `#define U_DISABLE_RENAMING 1` or a line `#import <unicode/NAME.h>`
(51 such lines); exactly one line is a `#define`; the only directive keywords
are `define` and `import`, so no line is an `#if`, `#ifdef` or `#ifndef`; no
line is a declaration or a definition; and no line is continued onto the next
by a backslash. -/
theorem umbrella_is_import_manifest :
    (∀ l ∈ umbrella_h, isBlankLine l = false → isLineComment l = false →
      l = "#define U_DISABLE_RENAMING 1" ∨
      ∃ name : String, name ≠ "" ∧ (∀ c ∈ name.toList, isIdentChar c = true) ∧
        l = "#import <unicode/" ++ name ++ ".h>") ∧
    (umbrella_h.filter (fun l => !isBlankLine l && !isLineComment l)).length = 51 ∧
    umbrella_h.countP (fun l => decide (keyword l = some "define")) = 1 ∧
    (∀ l ∈ umbrella_h,
      keyword l = none ∨ keyword l = some "define" ∨ keyword l = some "import") ∧
    (∀ l ∈ umbrella_h,
      keyword l ≠ some "if" ∧ keyword l ≠ some "ifdef" ∧ keyword l ≠ some "ifndef") ∧
    (∀ d ∈ directives, d.isOther = false) ∧
    (∀ l ∈ umbrella_h, endsInBackslash l = false) := by
  have hshape : umbrella_h.all isManifestLine = true := by decide
  refine ⟨?_, by decide, by decide, by decide, by decide, by decide, by decide⟩
  intro l hl hb hc
  have hm := List.all_eq_true.mp hshape l hl
  unfold isManifestLine at hm
  rw [hb, hc] at hm
  by_cases hd : l = defineLine
  · exact Or.inl hd
  · right
    cases hn : headerName? l with
    | none => simp [hn, hd] at hm
    | some n =>
      simp only [hn, hd, decide_False, Bool.false_or, Bool.and_eq_true,
        Bool.not_eq_true', List.all_eq_true] at hm
      refine ⟨String.mk n, ?_, hm.2, headerName?_sound l n hn⟩
      intro h0
      have h1 : n = [] := congrArg String.data h0
      rw [h1] at hm
      simp at hm

/-! ## The definition comes first -/

/-- C2: line 16 of the header is `#define U_DISABLE_RENAMING 1`, which binds
the macro `U_DISABLE_RENAMING` to `1`; every import directive is on a later
line (the first on line 20); and when the preprocessor reads the header from
the top, each of the headers of the import list is read, once, with
`U_DISABLE_RENAMING` bound to `1`. -/
theorem renaming_disabled_before_every_import :
    lineAt 16 = some "#define U_DISABLE_RENAMING 1" ∧
    parseLine "#define U_DISABLE_RENAMING 1" = Directive.define "U_DISABLE_RENAMING" "1" ∧
    (∀ (i : Nat) (p : String),
      (lineAt i).map parseLine = some (Directive.importAngle p) → 16 < i) ∧
    (lineAt 20).map parseLine = some (Directive.importAngle "unicode/icudataver.h") ∧
    (preprocess directives).imported.map Prod.fst = imports ∧
    (∀ e ∈ (preprocess directives).imported,
      e.2.lookup "U_DISABLE_RENAMING" = some "1") := by
  have hchk : checkFrom (fun n d => !(Directive.importPath? d).isSome || decide (16 < n))
      1 directives = true := by decide
  refine ⟨by decide, by decide, ?_, by decide, by decide, by decide⟩
  intro i p h
  cases i with
  | zero => simp [lineAt] at h
  | succ j =>
    have hj : directives[j]? = some (Directive.importAngle p) := by
      simpa [lineAt, directives, List.getElem?_map] using h
    have := checkFrom_get _ directives 1 hchk j _ hj
    simp [Directive.importPath?] at this
    omega

/-! ## What the import list contains -/

/-- C4: the import list holds the headers of normalization and of the UTF-8,
UTF-16 and UTF-32 conversions: `unicode/unorm2.h`, `unicode/utf8.h`,
`unicode/utf16.h`, `unicode/utf32.h`, `unicode/utf.h`, `unicode/ucnv.h` and
`unicode/ustring.h`. -/
theorem core_headers_imported :
    "unicode/unorm2.h" ∈ imports ∧ "unicode/utf8.h" ∈ imports ∧
    "unicode/utf16.h" ∈ imports ∧ "unicode/utf32.h" ∈ imports ∧
    "unicode/utf.h" ∈ imports ∧ "unicode/ucnv.h" ∈ imports ∧
    "unicode/ustring.h" ∈ imports := by
  decide

/-- C5, as stated, fails at collation: its header `unicode/ucol.h` is not in
the import list. -/
theorem collation_header_not_imported :
    "unicode/ucol.h" ∉ imports := by
  decide

/-- C5, amended: the import list holds the header of every listed area other
than collation: normalization (`unicode/unorm2.h`), bidi (`unicode/ubidi.h`),
break iteration (`unicode/ubrk.h`), case mapping (`unicode/ucasemap.h`),
encoding conversion (`unicode/ucnv.h`), locale data (`unicode/uloc.h`), regex
(`unicode/uregex.h`), string preparation (`unicode/usprep.h`) and IDNA
(`unicode/uidna.h`). No imported path starts with `unicode/ucol`; the
collation-based search header `unicode/usearch.h` is imported. -/
theorem area_headers_imported_except_collation :
    "unicode/unorm2.h" ∈ imports ∧ "unicode/ubidi.h" ∈ imports ∧
    "unicode/ubrk.h" ∈ imports ∧ "unicode/ucasemap.h" ∈ imports ∧
    "unicode/ucnv.h" ∈ imports ∧ "unicode/uloc.h" ∈ imports ∧
    "unicode/uregex.h" ∈ imports ∧ "unicode/usprep.h" ∈ imports ∧
    "unicode/uidna.h" ∈ imports ∧
    (∀ p ∈ imports, ¬ "unicode/ucol".toList <+: p.toList) ∧
    "unicode/usearch.h" ∈ imports := by
  decide

/-! ## The import list is sorted -/

/-- C9: the import list is strictly ascending in the byte-wise lexicographic
order of its paths, from `unicode/icudataver.h` to `unicode/uversion.h`; hence
no path occurs twice, and the 50 import directives name 50 distinct headers. -/
theorem imports_strictly_ascending :
    imports.Pairwise pathLt ∧
    imports.head? = some "unicode/icudataver.h" ∧
    imports.getLast? = some "unicode/uversion.h" ∧
    imports.Nodup ∧
    imports.length = 50 ∧
    imports.toFinset.card = 50 := by
  have hsorted : imports.Pairwise pathLt := by decide
  have hnodup : imports.Nodup := hsorted.imp (fun h => pathLt_ne h)
  have hlen : imports.length = 50 := by decide
  refine ⟨hsorted, by decide, by decide, hnodup, hlen, ?_⟩
  rw [List.toFinset_card_of_nodup hnodup, hlen]

end ICU4C
